import Mathlib

/-!
Verification of the consensus / reconciliation / risk-sizing / backtesting
core of the Trading-Agents repository.

The embedding below translates, into Lean over exact rationals:
* `TraderAgent._calculate_quantitative_consensus`, `TraderAgent._reconcile_decisions`
  and `TraderAgent._is_contradictory` (src/agents/trader.py);
* `RiskManager._calculate_risk_metrics` (src/agents/risk_manager.py);
* the `BacktestEngine` state machine: `run_backtest`, `_open_position`,
  `_close_position` (src/backtesting/backtest_engine.py).

Python floats are modelled as `ℚ`; Python strings as `String`; Python `None`
as `Option`; a raised exception as an explicit error value.  Pandas timestamps
are modelled as `ℤ` day ordinals; a price DataFrame as a `List Bar` kept in
frame order.
-/

namespace TradingAgents

/-! ### Signal aggregation (trader.py) -/

/-- A trading-agent response as consumed by the consensus calculation:
`agent_name`, `recommendation` (a free-form string) and `confidence`. -/
structure AgentResp where
  agentName : String
  recommendation : String
  confidence : ℚ
deriving DecidableEq, Repr

/-- Embeds `rec_to_score.get(recommendation, 0)`: ordinal score of a recommendation
label, unknown labels default to 0. -/
def recToScore (r : String) : Int :=
  if r = "STRONG BUY" then 2
  else if r = "BUY" then 1
  else if r = "HOLD" then 0
  else if r = "SELL" then -1
  else if r = "STRONG SELL" then -2
  else 0

/-- Embeds the `score_to_rec` lookup for a score already clamped to `[-2, 2]`. -/
def scoreToRec (n : Int) : String :=
  if n = 2 then "STRONG BUY"
  else if n = 1 then "BUY"
  else if n = 0 then "HOLD"
  else if n = -1 then "SELL"
  else "STRONG SELL"

/-- Embeds `self.agent_weights.get(agent_name, 0.33)`: the fixed per-agent weight
table of `TraderAgent`, with default weight 0.33. -/
def agentWeight (name : String) : ℚ :=
  if name = "Technical Analyst" then 35/100
  else if name = "Fundamental Analyst" then 35/100
  else if name = "Sentiment Analyst" then 30/100
  else 33/100

/-- Embeds `sum(self.agent_weights.values())`: the total of the fixed weight table. -/
def agentWeightsTotal : ℚ := 35/100 + 35/100 + 30/100

/-- Python 3 `round` on an exact value: round half to even. -/
def pythonRound (q : ℚ) : Int :=
  let f := ⌊q⌋
  let r := q - f
  if r < 1/2 then f
  else if 1/2 < r then f + 1
  else if f % 2 = 0 then f else f + 1

/-- Embeds `adjusted_weight = weight * response.confidence`, summed over responses. -/
def totalAdjWeight (rs : List AgentResp) : ℚ :=
  (rs.map (fun r => agentWeight r.agentName * r.confidence)).sum

/-- The accumulated `weighted_scores` sum: `Σ score_i * adjusted_weight_i`. -/
def weightedScoreSum (rs : List AgentResp) : ℚ :=
  (rs.map (fun r =>
    (recToScore r.recommendation : ℚ) * (agentWeight r.agentName * r.confidence))).sum

/-- Embeds `consensus_score`: weighted mean of ordinal scores, 0 when the total
adjusted weight is not positive. -/
def consensusScore (rs : List AgentResp) : ℚ :=
  if 0 < totalAdjWeight rs then weightedScoreSum rs / totalAdjWeight rs else 0

/-- Population variance (`np.var`) of a list of rationals. -/
def popVar (xs : List ℚ) : ℚ :=
  let n : ℚ := xs.length
  let mean := xs.sum / n
  ((xs.map (fun x => (x - mean) ^ 2)).sum) / n

/-- Embeds `variance = np.var(scores) if len(scores) > 1 else 0`. -/
def scoreVariance (rs : List AgentResp) : ℚ :=
  let scores := rs.map (fun r => (recToScore r.recommendation : ℚ))
  if 1 < rs.length then popVar scores else 0

/-- Embeds `agreement_level = max(0, 1 - variance/4)`. -/
def agreementLevel (rs : List AgentResp) : ℚ :=
  max 0 (1 - scoreVariance rs / 4)

/-- Embeds `consensus_confidence`: the code divides the weight-scaled confidence sum
by `sum(self.agent_weights.values())` — the fixed table total — not by the
weights of the supplied responses. -/
def consensusConfidence (rs : List AgentResp) : ℚ :=
  (rs.map (fun r => r.confidence * agentWeight r.agentName)).sum / agentWeightsTotal

/-- Formula of the specification text for `consensus_confidence`
(for comparison with `consensusConfidence`): numerator and denominator both
range over the source set of the supplied signals. -/
def specConsensusConfidence (rs : List AgentResp) : ℚ :=
  (rs.map (fun r => r.confidence * agentWeight r.agentName)).sum /
    (rs.map (fun r => agentWeight r.agentName)).sum

/-- The fields of the quantitative-consensus dict that are consumed
downstream by `_reconcile_decisions` (the dict also carries
`individual_scores` and `weights_used`, which no claim touches). -/
structure QuantDecision where
  recommendation : String
  consensusScore : ℚ
  agreementLevel : ℚ
  consensusConfidence : ℚ
deriving DecidableEq, Repr

/-- Embeds `_calculate_quantitative_consensus` assembled from its pieces. -/
def quantConsensus (rs : List AgentResp) : QuantDecision :=
  { recommendation := scoreToRec (max (-2) (min 2 (pythonRound (consensusScore rs))))
    consensusScore := consensusScore rs
    agreementLevel := agreementLevel rs
    consensusConfidence := consensusConfidence rs }

/-! ### Decision reconciliation (trader.py) -/

/-- Embeds `_is_contradictory(decision, consensus)`: BUY family against SELL family
in either direction, or a HOLD consensus against any directional decision
(the code's `in buy_recs` / `in sell_recs` membership checks written out). -/
def isContradictory (decision consensus : String) : Bool :=
  if (consensus = "STRONG BUY" ∨ consensus = "BUY") ∧
      (decision = "STRONG SELL" ∨ decision = "SELL") then true
  else if (consensus = "STRONG SELL" ∨ consensus = "SELL") ∧
      (decision = "STRONG BUY" ∨ decision = "BUY") then true
  else if consensus = "HOLD" ∧
      (decision = "STRONG BUY" ∨ decision = "BUY" ∨
        decision = "SELL" ∨ decision = "STRONG SELL") then true
  else false

/-- Embeds `llm_recommendation.replace('STRONG ', '')` on the two labels that can
reach the moderation branch; other strings have no occurrence and are kept. -/
def stripStrong (s : String) : String :=
  if s = "STRONG BUY" then "BUY"
  else if s = "STRONG SELL" then "SELL"
  else s

/-- Embeds `_reconcile_decisions`: the two guarded early returns, then the shared
fall-through that dampens the qualitative confidence by the agreement level. -/
def reconcile (qd : QuantDecision) (llmRec : String) (llmConf : ℚ) : String × ℚ :=
  if 7/10 < qd.agreementLevel then
    if isContradictory llmRec qd.recommendation then
      (qd.recommendation, qd.consensusConfidence)
    else (llmRec, llmConf * (1/2 + 1/2 * qd.agreementLevel))
  else if 1/2 < qd.agreementLevel then
    if (llmRec = "STRONG BUY" ∨ llmRec = "STRONG SELL") ∧
        (qd.recommendation = "BUY" ∨ qd.recommendation = "SELL" ∨
          qd.recommendation = "HOLD") then
      (stripStrong llmRec, (llmConf + qd.consensusConfidence) / 2)
    else (llmRec, llmConf * (1/2 + 1/2 * qd.agreementLevel))
  else (llmRec, llmConf * (1/2 + 1/2 * qd.agreementLevel))

/-- Embeds the `make_decision` metadata field `was_overridden`:
`final_recommendation != llm_recommendation`. -/
def wasOverridden (qd : QuantDecision) (llmRec : String) (llmConf : ℚ) : Bool :=
  (reconcile qd llmRec llmConf).1 ≠ llmRec

/-- The contradiction relation as the claims phrase it: the two labels lie in
opposite directional families, or the consensus is HOLD and the qualitative
call is directional. -/
def ContradictionProp (decision consensus : String) : Prop :=
  ((consensus = "STRONG BUY" ∨ consensus = "BUY") ∧
    (decision = "STRONG SELL" ∨ decision = "SELL")) ∨
  ((consensus = "STRONG SELL" ∨ consensus = "SELL") ∧
    (decision = "STRONG BUY" ∨ decision = "BUY")) ∨
  (consensus = "HOLD" ∧
    (decision = "STRONG BUY" ∨ decision = "BUY" ∨
      decision = "SELL" ∨ decision = "STRONG SELL"))

instance (decision consensus : String) :
    Decidable (ContradictionProp decision consensus) := by
  unfold ContradictionProp
  infer_instance

/-! ### Risk sizing (risk_manager.py) -/

/-- Embeds `Config.MAX_POSITION_SIZE` (src/config.py). -/
def maxPositionSize : ℚ := 1/10

/-- Embeds `Config.STOP_LOSS_PERCENT` (src/config.py). -/
def stopLossPercent : ℚ := 1/20

/-- Embeds `Config.TAKE_PROFIT_PERCENT` (src/config.py). -/
def takeProfitPercent : ℚ := 3/20

/-- Character-list prefix test used to model Python's substring operator. -/
def isPrefixOfChars : List Char → List Char → Bool
  | [], _ => true
  | _ :: _, [] => false
  | a :: as, b :: bs => a = b && isPrefixOfChars as bs

/-- Substring occurrence test over character lists. -/
def containsSub (pat : List Char) : List Char → Bool
  | [] => pat.isEmpty
  | c :: rest => isPrefixOfChars pat (c :: rest) || containsSub pat rest

/-- Python `"BUY" in trading_decision.upper()`. -/
def isBuyDecision (decision : String) : Bool :=
  containsSub ['B', 'U', 'Y'] (decision.data.map Char.toUpper)

/-- Python `"SELL" in trading_decision.upper()`. -/
def isSellDecision (decision : String) : Bool :=
  containsSub ['S', 'E', 'L', 'L'] (decision.data.map Char.toUpper)

/-- Classification of annualized volatility into
`(volatility_adjustment, risk_level)`. -/
def volatilityAdjustment (vol : ℚ) : ℚ × String :=
  if vol < 15 then (1, "Low")
  else if vol < 25 then (3/4, "Medium")
  else if vol < 40 then (1/2, "High")
  else (3/10, "Very High")

/-- Position-size choice for either direction: the regex hint is used when it
is truthy and inside `[0.01, MAX_POSITION_SIZE]`, else the volatility-scaled
base position (`0.0` parsed from text is falsy in Python, hence the `p ≠ 0`). -/
def choosePositionSize (basePosition : ℚ) (hint : Option ℚ) : ℚ :=
  match hint with
  | some p => if p ≠ 0 ∧ 1/100 ≤ p ∧ p ≤ maxPositionSize then p else basePosition
  | none => basePosition

/-- Long stop-loss: the hint only when truthy and below `0.99 * price`. -/
def longStopPrice (currentPrice : ℚ) (hint : Option ℚ) : ℚ :=
  match hint with
  | some s => if s ≠ 0 ∧ s < currentPrice * (99/100) then s
              else currentPrice * (1 - stopLossPercent)
  | none => currentPrice * (1 - stopLossPercent)

/-- Long take-profit: the hint only when truthy and above `1.01 * price`. -/
def longTakePrice (currentPrice : ℚ) (hint : Option ℚ) : ℚ :=
  match hint with
  | some t => if t ≠ 0 ∧ currentPrice * (101/100) < t then t
              else currentPrice * (1 + takeProfitPercent)
  | none => currentPrice * (1 + takeProfitPercent)

/-- Short stop-loss: the hint only when truthy and above `1.01 * price`. -/
def shortStopPrice (currentPrice : ℚ) (hint : Option ℚ) : ℚ :=
  match hint with
  | some s => if s ≠ 0 ∧ currentPrice * (101/100) < s then s
              else currentPrice * (1 + stopLossPercent)
  | none => currentPrice * (1 + stopLossPercent)

/-- Short take-profit: the hint only when truthy and below `0.99 * price`. -/
def shortTakePrice (currentPrice : ℚ) (hint : Option ℚ) : ℚ :=
  match hint with
  | some t => if t ≠ 0 ∧ t < currentPrice * (99/100) then t
              else currentPrice * (1 - takeProfitPercent)
  | none => currentPrice * (1 - takeProfitPercent)

/-- Numeric content of the dict `_calculate_risk_metrics` returns (the source
formats `position_size`, `risk_reward_ratio` and `max_loss_dollars` into
display strings; the claims concern the numeric values). -/
structure RiskMetrics where
  riskLevel : String
  positionSize : ℚ
  stopLossPrice : Option ℚ
  takeProfitPrice : Option ℚ
  riskReward : ℚ
  maxLossDollars : ℚ
deriving DecidableEq, Repr

/-- The `risk_reward_ratio` / `max_loss_dollars` epilogue: computed only when
`position_size > 0` and the stop level is truthy, guarding the zero risk
distance, against a hard-coded 10000 reference portfolio. -/
def riskEpilogue (currentPrice positionSize : ℚ)
    (stop take : Option ℚ) : ℚ × ℚ :=
  match stop with
  | some s =>
    if 0 < positionSize ∧ s ≠ 0 then
      let riskDistance := |currentPrice - s|
      let rewardDistance := match take with
        | some t => if t ≠ 0 then |t - currentPrice| else 0
        | none => 0
      let rr := if 0 < riskDistance then rewardDistance / riskDistance else 0
      (rr, 10000 * positionSize * (riskDistance / currentPrice))
    else (0, 0)
  | none => (0, 0)

/-- Embeds `_calculate_risk_metrics(stats, trading_decision, llm_response)`; the three
regex extractions from the narrative text are abstracted as the optional
rational hints `llmPos`, `llmStop`, `llmTake`. -/
def calculateRiskMetrics (currentPrice vol : ℚ) (decision : String)
    (llmPos llmStop llmTake : Option ℚ) : RiskMetrics :=
  let adj := volatilityAdjustment vol
  if isBuyDecision decision then
    let posSize := choosePositionSize (maxPositionSize * adj.1) llmPos
    let stop := longStopPrice currentPrice llmStop
    let take := longTakePrice currentPrice llmTake
    let ep := riskEpilogue currentPrice posSize (some stop) (some take)
    ⟨adj.2, posSize, some stop, some take, ep.1, ep.2⟩
  else if isSellDecision decision then
    let posSize := choosePositionSize (maxPositionSize * adj.1 * (7/10)) llmPos
    let stop := shortStopPrice currentPrice llmStop
    let take := shortTakePrice currentPrice llmTake
    let ep := riskEpilogue currentPrice posSize (some stop) (some take)
    ⟨adj.2, posSize, some stop, some take, ep.1, ep.2⟩
  else
    ⟨adj.2, 0, none, none, 0, 0⟩

/-! ### Backtest engine (backtest_engine.py) -/

/-- One row of the historical price DataFrame; `date` is a day ordinal. -/
structure Bar where
  date : Int
  low : ℚ
  high : ℚ
  close : ℚ
deriving DecidableEq, Repr

/-- The decision record the orchestrator hands back at a rebalance date, as
the engine consumes it: `final_recommendation`, `confidence`, and the
risk-assessment metadata used for opening (`position_size`, parsed back from
its percent string, plus the stop/target prices). -/
structure Decision where
  finalRec : String
  confidence : ℚ
  positionSize : ℚ
  stopLoss : ℚ
  takeProfit : ℚ
deriving DecidableEq, Repr

/-- An open position dict as built by `_open_position`. -/
structure Position where
  ticker : String
  entryDate : Int
  entryPrice : ℚ
  shares : ℚ
  positionValue : ℚ
  decisionRec : String
  decisionConf : ℚ
  stopLoss : ℚ
  takeProfit : ℚ
deriving DecidableEq, Repr

/-- A `BacktestTrade` record (the dataclass at the top of the file). -/
structure Trade where
  ticker : String
  entryDate : Int
  entryPrice : ℚ
  exitDate : Int
  exitPrice : ℚ
  recommendation : String
  confidence : ℚ
  positionSize : ℚ
  returnPct : ℚ
  profitLoss : ℚ
  stopHit : Bool
  targetHit : Bool
deriving DecidableEq, Repr

/-- Mutable engine state threaded through the date loop: `current_capital`,
`current_position` (a single optional slot, so at most one position is ever
open) and the append-only `trades` ledger. -/
structure BTState where
  capital : ℚ
  position : Option Position
  trades : List Trade
deriving DecidableEq, Repr

/-- Close price at a date: the bar whose date matches exactly, else the first
bar on or after the date, else `none` (the source raises `IndexError`). -/
def priceAtOnOrAfter (bars : List Bar) (d : Int) : Option ℚ :=
  match bars.filter (fun b => b.date = d) with
  | b :: _ => some b.close
  | [] => ((bars.filter (fun b => d ≤ b.date)).head?).map Bar.close

/-- Embeds `_open_position`: entry at the close of the bar at (or first after) the
decision date; `none` models the raised exception when no such bar exists or
the entry price is 0 (Python's `ZeroDivisionError` computing `shares`). -/
def openPosition (bars : List Bar) (ticker : String) (d : Int)
    (dec : Decision) (capital : ℚ) : Option Position :=
  match priceAtOnOrAfter bars d with
  | none => none
  | some entry =>
    if entry = 0 then none
    else
      let positionValue := capital * dec.positionSize
      some ⟨ticker, d, entry, positionValue / entry, positionValue,
        dec.finalRec, dec.confidence, dec.stopLoss, dec.takeProfit⟩

/-- Exit-path scan of `_close_position`: the bars with
`entry_date < date ≤ close date`, in frame order. -/
def betweenBars (bars : List Bar) (pos : Position) (d : Int) : List Bar :=
  bars.filter (fun b => pos.entryDate < b.date ∧ b.date ≤ d)

/-- Computes the `(stop_hit, target_hit, actual_exit)` of `_close_position`: stop checked
before target over the scanned window, else the close-date price. -/
def exitPath (bars : List Bar) (pos : Position) (d : Int)
    (exitClose : ℚ) : Bool × Bool × ℚ :=
  let between := betweenBars bars pos d
  if between.isEmpty then (false, false, exitClose)
  else if between.any (fun b => decide (b.low ≤ pos.stopLoss)) then
    (true, false, pos.stopLoss)
  else if between.any (fun b => decide (pos.takeProfit ≤ b.high)) then
    (false, true, pos.takeProfit)
  else (false, false, exitClose)

/-- Outcome of one `_close_position` call.  The source mutates state in this
order: compute P&L and `return_pct` (divides by `entry_price`), add the P&L to
`current_capital`, build the `BacktestTrade` (divides `position_value` by
`initial_capital`), append it.  `raisedClean` models an exception thrown
before the capital mutation (missing exit bar, or zero entry price);
`raisedAfterCapital` models the `ZeroDivisionError` thrown while building the
trade when `initial_capital = 0`, after the capital was already updated. -/
inductive CloseResult where
  | raisedClean : CloseResult
  | raisedAfterCapital : ℚ → CloseResult
  | closed : Trade → CloseResult
deriving DecidableEq, Repr

/-- Embeds `_close_position(position, date, price_data)`. -/
def closePosition (initialCapital : ℚ) (bars : List Bar) (pos : Position)
    (d : Int) : CloseResult :=
  match priceAtOnOrAfter bars d with
  | none => .raisedClean
  | some exitClose =>
    let path := exitPath bars pos d exitClose
    let actualExit := path.2.2
    let profitLoss := (actualExit - pos.entryPrice) * pos.shares
    if pos.entryPrice = 0 then .raisedClean
    else if initialCapital = 0 then .raisedAfterCapital profitLoss
    else
      .closed ⟨pos.ticker, pos.entryDate, pos.entryPrice, d, actualExit,
        pos.decisionRec, pos.decisionConf, pos.positionValue / initialCapital,
        (actualExit - pos.entryPrice) / pos.entryPrice * 100, profitLoss,
        path.1, path.2.1⟩

/-- Effect of a completed close on the engine state: capital absorbs the P&L,
the position slot is cleared, exactly one trade is appended. -/
def applyClose (st : BTState) (tr : Trade) : BTState :=
  ⟨st.capital + tr.profitLoss, none, st.trades ++ [tr]⟩

/-- The open attempt at the end of the loop body: runs whenever the final
recommendation is BUY or STRONG BUY, whether or not a position is open; a
raised exception (`none`) is caught by the loop's `try`, keeping prior
effects. -/
def thenOpen (bars : List Bar) (ticker : String) (d : Int) (dec : Decision)
    (st : BTState) : BTState :=
  if dec.finalRec = "BUY" ∨ dec.finalRec = "STRONG BUY" then
    match openPosition bars ticker d dec st.capital with
    | some p => ⟨st.capital, some p, st.trades⟩
    | none => st
  else st

/-- The `try` body of one date iteration once a decision has been obtained:
close when a position is open and the recommendation is SELL / STRONG SELL /
HOLD (an exception inside the close aborts the body with the state
transformed exactly as far as the source had mutated it), then the open
attempt. -/
def stepDecided (initialCapital : ℚ) (bars : List Bar) (ticker : String)
    (st : BTState) (d : Int) (dec : Decision) : BTState :=
  match st.position with
  | some p =>
    if dec.finalRec = "SELL" ∨ dec.finalRec = "STRONG SELL" ∨
        dec.finalRec = "HOLD" then
      match closePosition initialCapital bars p d with
      | .raisedClean => st
      | .raisedAfterCapital pl => ⟨st.capital + pl, st.position, st.trades⟩
      | .closed tr => thenOpen bars ticker d dec (applyClose st tr)
    else thenOpen bars ticker d dec st
  | none => thenOpen bars ticker d dec st

/-- One full date iteration: skip when fewer than 30 bars are available up to
the date; `analyze d = none` models `_analyze_at_date` raising (caught, state
unchanged). -/
def stepDate (initialCapital : ℚ) (bars : List Bar) (ticker : String)
    (analyze : Int → Option Decision) (st : BTState) (d : Int) : BTState :=
  if (bars.filter (fun b => b.date ≤ d)).length < 30 then st
  else
    match analyze d with
    | none => st
    | some dec => stepDecided initialCapital bars ticker st d dec

/-- The `while current_date < end` loop over the precomputed decision dates. -/
def runLoop (initialCapital : ℚ) (bars : List Bar) (ticker : String)
    (analyze : Int → Option Decision) (dates : List Int) (st : BTState) :
    BTState :=
  dates.foldl (stepDate initialCapital bars ticker analyze) st

/-- The forced close after the date loop: a still-open position is closed at
the end date; that call sits outside any `try`, so `none` models the whole
run raising. -/
def finalClose (initialCapital : ℚ) (bars : List Bar) (endDate : Int)
    (st : BTState) : Option BTState :=
  match st.position with
  | none => some st
  | some p =>
    match closePosition initialCapital bars p endDate with
    | .closed tr => some (applyClose st tr)
    | _ => none

/-- Embeds `run_backtest` from the state reset through the forced final close. -/
def runBacktestStates (initialCapital : ℚ) (bars : List Bar) (ticker : String)
    (analyze : Int → Option Decision) (dates : List Int) (endDate : Int) :
    Option BTState :=
  finalClose initialCapital bars endDate
    (runLoop initialCapital bars ticker analyze dates ⟨initialCapital, none, []⟩)

/-- The decision dates `start, start+Δ, start+2Δ, …` strictly below `end`,
in closed form (for Δ ≥ 1 this is exactly the set the `while` loop visits). -/
def decisionDates (s e : Int) (Δ : Nat) : List Int :=
  (List.range (((e - s).toNat + Δ - 1) / Δ)).map (fun i => s + Δ * i)

/-- What `run_backtest` hands back to its caller, with a raised exception as
an explicit error: `empty` is the `{}` dict, `results` the populated dict. -/
inductive BTOutcome where
  | empty : BTOutcome
  | results : BTState → BTOutcome
deriving DecidableEq, Repr

/-- Top of `run_backtest`: `pd.to_datetime` runs on both date strings BEFORE
the `try` block, so a parse failure propagates to the caller; only the data
fetch is guarded, returning `{}` on failure or when fewer bars than
`rebalance_days` exist.  `_calculate_results` returns `{}` when no trades were
recorded.  `parseDate` and `fetchData` model the external pandas / fetcher
collaborators. -/
def runBacktestTop (parseDate : String → Except String Int)
    (fetchData : String → String → String → Except String (List Bar))
    (analyze : Int → Option Decision) (ticker startS endS : String)
    (rebalanceDays : Nat) (initialCapital : ℚ) : Except String BTOutcome := do
  let s ← parseDate startS
  let e ← parseDate endS
  match fetchData ticker startS endS with
  | .error _ => pure .empty
  | .ok bars =>
    if bars.length < rebalanceDays then pure .empty
    else
      match runBacktestStates initialCapital bars ticker analyze
          (decisionDates s e rebalanceDays) e with
      | some st => if st.trades.isEmpty then pure .empty else pure (.results st)
      | none => .error "IndexError"

/-- Total realized profit and loss of a trade ledger. -/
def sumProfitLoss (ts : List Trade) : ℚ := (ts.map Trade.profitLoss).sum

/-- Exit-path scan following the specification text, for comparison with
`exitPath`: the scanned window holds the bars strictly between the entry date
and the close date, both endpoints excluded. -/
def exitPathStrictBetween (bars : List Bar) (pos : Position) (d : Int)
    (exitClose : ℚ) : Bool × Bool × ℚ :=
  let between := bars.filter (fun b => pos.entryDate < b.date ∧ b.date < d)
  if between.isEmpty then (false, false, exitClose)
  else if between.any (fun b => decide (b.low ≤ pos.stopLoss)) then
    (true, false, pos.stopLoss)
  else if between.any (fun b => decide (pos.takeProfit ≤ b.high)) then
    (false, true, pos.takeProfit)
  else (false, false, exitClose)

/-! ### Theorems

Helper lemmas first, then one theorem per claim (with a closed witness for
every theorem that carries a hypothesis, and a closed counterexample for
every claim the code refutes). -/

lemma contradictionProp_iff (decision consensus : String) :
    ContradictionProp decision consensus ↔ isContradictory decision consensus = true := by
  unfold ContradictionProp isContradictory
  split_ifs with h1 h2 h3 <;> simp <;> tauto

lemma contradiction_ne (decision consensus : String)
    (h : ContradictionProp decision consensus) : decision ≠ consensus := by
  rcases h with ⟨hc | hc, hd | hd⟩ | ⟨hc | hc, hd | hd⟩ | ⟨hc, hd | hd | hd | hd⟩ <;>
    subst hc <;> subst hd <;> decide

/-- C8: with zero signals the aggregator does not fail: it returns HOLD,
consensus confidence 0, agreement level 1 and consensus score 0. -/
theorem empty_signals_degenerate_consensus :
    quantConsensus [] =
      { recommendation := "HOLD", consensusScore := 0,
        agreementLevel := 1, consensusConfidence := 0 } := by
  norm_num [quantConsensus, consensusScore, totalAdjWeight, weightedScoreSum,
    agreementLevel, scoreVariance, consensusConfidence, agentWeightsTotal,
    pythonRound, scoreToRec]

/-- C4 counterexample: for the single-signal set from the Technical Analyst at
full confidence, the code's consensus confidence is 0.35 while the claimed
formula (denominator over the supplied source set) yields 1 — the claim is
false for this non-empty signal set. -/
theorem consensus_confidence_denominator_mismatch :
    consensusConfidence [⟨"Technical Analyst", "BUY", 1⟩] = 7/20 ∧
    specConsensusConfidence [⟨"Technical Analyst", "BUY", 1⟩] = 1 ∧
    consensusConfidence [⟨"Technical Analyst", "BUY", 1⟩] ≠
      specConsensusConfidence [⟨"Technical Analyst", "BUY", 1⟩] := by
  refine ⟨?_, ?_, ?_⟩ <;>
    norm_num [consensusConfidence, specConsensusConfidence, agentWeight,
      agentWeightsTotal]

/-- C4 amended: the code divides by the fixed weight-table total
(0.35 + 0.35 + 0.30 = 1), not by the base weights of the supplied signals;
the claimed formula therefore holds exactly when the supplied signals' base
weights sum to 1. -/
theorem consensus_confidence_formula (rs : List AgentResp)
    (h : (rs.map (fun r => agentWeight r.agentName)).sum = 1) :
    consensusConfidence rs = specConsensusConfidence rs := by
  unfold consensusConfidence specConsensusConfidence agentWeightsTotal
  rw [h]
  norm_num

/-- Witness for `consensus_confidence_formula` at the three configured
analysts (base weights summing to 1). -/
theorem consensus_confidence_formula_witness :
    (([⟨"Technical Analyst", "BUY", 8/10⟩, ⟨"Fundamental Analyst", "BUY", 6/10⟩,
        ⟨"Sentiment Analyst", "SELL", 4/10⟩] : List AgentResp).map
      (fun r => agentWeight r.agentName)).sum = 1 ∧
    consensusConfidence [⟨"Technical Analyst", "BUY", 8/10⟩,
        ⟨"Fundamental Analyst", "BUY", 6/10⟩, ⟨"Sentiment Analyst", "SELL", 4/10⟩] =
      specConsensusConfidence [⟨"Technical Analyst", "BUY", 8/10⟩,
        ⟨"Fundamental Analyst", "BUY", 6/10⟩, ⟨"Sentiment Analyst", "SELL", 4/10⟩] := by
  have h : (([⟨"Technical Analyst", "BUY", 8/10⟩, ⟨"Fundamental Analyst", "BUY", 6/10⟩,
      ⟨"Sentiment Analyst", "SELL", 4/10⟩] : List AgentResp).map
        (fun r => agentWeight r.agentName)).sum = 1 := by
    simp only [agentWeight, List.map_cons, List.map_nil, List.sum_cons,
      List.sum_nil, String.reduceEq, reduceIte]
    norm_num
  exact ⟨h, consensus_confidence_formula _ h⟩

/-- C5: under strong agreement (level > 0.7) a qualitative call that
contradicts the consensus (opposite directional families, or directional
against a HOLD consensus) is discarded: the final decision is the consensus
recommendation with the consensus confidence, and `was_overridden` is true. -/
theorem strong_agreement_override (qd : QuantDecision) (llmRec : String)
    (llmConf : ℚ) (hA : 7/10 < qd.agreementLevel)
    (hC : ContradictionProp llmRec qd.recommendation) :
    reconcile qd llmRec llmConf = (qd.recommendation, qd.consensusConfidence) ∧
    wasOverridden qd llmRec llmConf = true := by
  have hc := (contradictionProp_iff _ _).mp hC
  have hne := contradiction_ne _ _ hC
  have hr : reconcile qd llmRec llmConf = (qd.recommendation, qd.consensusConfidence) := by
    unfold reconcile
    rw [if_pos hA, if_pos hc]
  refine ⟨hr, ?_⟩
  unfold wasOverridden
  rw [hr]
  exact decide_eq_true (Ne.symm hne)

/-- Witness for `strong_agreement_override`: agreement 0.8, consensus BUY,
qualitative SELL. -/
theorem strong_agreement_override_witness :
    (7/10 : ℚ) < (8/10 : ℚ) ∧ ContradictionProp "SELL" "BUY" ∧
    reconcile ⟨"BUY", 1, 8/10, 6/10⟩ "SELL" (9/10) = ("BUY", 6/10) ∧
    wasOverridden ⟨"BUY", 1, 8/10, 6/10⟩ "SELL" (9/10) = true :=
  ⟨by norm_num, by decide,
    (strong_agreement_override ⟨"BUY", 1, 8/10, 6/10⟩ "SELL" (9/10)
      (by norm_num) (by decide)).1,
    (strong_agreement_override ⟨"BUY", 1, 8/10, 6/10⟩ "SELL" (9/10)
      (by norm_num) (by decide)).2⟩

/-- C7: under weak agreement (level ≤ 0.5) the qualitative recommendation is
kept, its confidence dampened by `0.5 + 0.5 * agreement_level`, and
`was_overridden` is false. -/
theorem weak_agreement_dampening (qd : QuantDecision) (llmRec : String)
    (llmConf : ℚ) (hA : qd.agreementLevel ≤ 1/2) :
    reconcile qd llmRec llmConf =
      (llmRec, llmConf * (1/2 + 1/2 * qd.agreementLevel)) ∧
    wasOverridden qd llmRec llmConf = false := by
  have h1 : ¬ (7/10 < qd.agreementLevel) := by linarith
  have h2 : ¬ (1/2 < qd.agreementLevel) := by linarith
  have hr : reconcile qd llmRec llmConf =
      (llmRec, llmConf * (1/2 + 1/2 * qd.agreementLevel)) := by
    unfold reconcile
    rw [if_neg h1, if_neg h2]
  refine ⟨hr, ?_⟩
  unfold wasOverridden
  rw [hr]
  simp

/-- Witness for `weak_agreement_dampening`: agreement 0.25 dampens 0.8
confidence to 0.5. -/
theorem weak_agreement_dampening_witness :
    ((⟨"HOLD", 0, 1/4, 3/10⟩ : QuantDecision).agreementLevel ≤ 1/2) ∧
    reconcile ⟨"HOLD", 0, 1/4, 3/10⟩ "BUY" (8/10) = ("BUY", 1/2) ∧
    wasOverridden ⟨"HOLD", 0, 1/4, 3/10⟩ "BUY" (8/10) = false :=
  ⟨by norm_num,
    ((weak_agreement_dampening ⟨"HOLD", 0, 1/4, 3/10⟩ "BUY" (8/10)
      (by norm_num)).1).trans (by norm_num),
    (weak_agreement_dampening ⟨"HOLD", 0, 1/4, 3/10⟩ "BUY" (8/10)
      (by norm_num)).2⟩

/-- C10: whenever agreement level exceeds 0.5 but neither special branch
fires — no contradiction in the strong regime, no extreme qualitative call
against a non-extreme consensus in the moderate regime — the reconciler still
returns the qualitative recommendation dampened by the same
`0.5 + 0.5 * agreement_level` factor, with `was_overridden` false. -/
theorem fallthrough_dampening_above_half (qd : QuantDecision) (llmRec : String)
    (llmConf : ℚ) (hA : 1/2 < qd.agreementLevel)
    (hStrong : 7/10 < qd.agreementLevel → ¬ ContradictionProp llmRec qd.recommendation)
    (hModerate : qd.agreementLevel ≤ 7/10 →
      ¬ ((llmRec = "STRONG BUY" ∨ llmRec = "STRONG SELL") ∧
        (qd.recommendation = "BUY" ∨ qd.recommendation = "SELL" ∨
          qd.recommendation = "HOLD"))) :
    reconcile qd llmRec llmConf =
      (llmRec, llmConf * (1/2 + 1/2 * qd.agreementLevel)) ∧
    wasOverridden qd llmRec llmConf = false := by
  have hr : reconcile qd llmRec llmConf =
      (llmRec, llmConf * (1/2 + 1/2 * qd.agreementLevel)) := by
    unfold reconcile
    by_cases h7 : 7/10 < qd.agreementLevel
    · have hc : ¬ isContradictory llmRec qd.recommendation = true := fun hb =>
        hStrong h7 ((contradictionProp_iff _ _).mpr hb)
      rw [if_pos h7, if_neg hc]
    · rw [if_neg h7, if_pos hA, if_neg (hModerate (le_of_not_lt h7))]
  refine ⟨hr, ?_⟩
  unfold wasOverridden
  rw [hr]
  simp

/-- Witness for `fallthrough_dampening_above_half`: agreement 0.9, consensus
BUY, qualitative BUY (no contradiction) keeps BUY with dampened confidence. -/
theorem fallthrough_dampening_above_half_witness :
    ((1/2 : ℚ) < (⟨"BUY", 1, 9/10, 7/10⟩ : QuantDecision).agreementLevel) ∧
    reconcile ⟨"BUY", 1, 9/10, 7/10⟩ "BUY" (8/10) = ("BUY", 8/10 * (1/2 + 1/2 * (9/10))) ∧
    wasOverridden ⟨"BUY", 1, 9/10, 7/10⟩ "BUY" (8/10) = false :=
  ⟨by norm_num,
    (fallthrough_dampening_above_half ⟨"BUY", 1, 9/10, 7/10⟩ "BUY" (8/10)
      (by norm_num) (fun _ => by decide) (fun h => absurd h (by norm_num))).1,
    (fallthrough_dampening_above_half ⟨"BUY", 1, 9/10, 7/10⟩ "BUY" (8/10)
      (by norm_num) (fun _ => by decide) (fun h => absurd h (by norm_num))).2⟩

lemma longStopPrice_lt (cp : ℚ) (hint : Option ℚ) (hcp : 0 < cp) :
    longStopPrice cp hint < cp := by
  unfold longStopPrice stopLossPercent
  have hdef : cp * (1 - 1/20) < cp := by linarith
  cases hint with
  | none => exact hdef
  | some s =>
    dsimp only
    split_ifs with hs
    · have : cp * (99/100) < cp := by linarith
      linarith [hs.2]
    · exact hdef

lemma longTakePrice_gt (cp : ℚ) (hint : Option ℚ) (hcp : 0 < cp) :
    cp < longTakePrice cp hint := by
  unfold longTakePrice takeProfitPercent
  have hdef : cp < cp * (1 + 3/20) := by linarith
  cases hint with
  | none => exact hdef
  | some t =>
    dsimp only
    split_ifs with ht
    · have : cp < cp * (101/100) := by linarith
      linarith [ht.2]
    · exact hdef

lemma shortStopPrice_gt (cp : ℚ) (hint : Option ℚ) (hcp : 0 < cp) :
    cp < shortStopPrice cp hint := by
  unfold shortStopPrice stopLossPercent
  have hdef : cp < cp * (1 + 1/20) := by linarith
  cases hint with
  | none => exact hdef
  | some s =>
    dsimp only
    split_ifs with hs
    · have : cp < cp * (101/100) := by linarith
      linarith [hs.2]
    · exact hdef

lemma shortTakePrice_lt (cp : ℚ) (hint : Option ℚ) (hcp : 0 < cp) :
    shortTakePrice cp hint < cp := by
  unfold shortTakePrice takeProfitPercent
  have hdef : cp * (1 - 3/20) < cp := by linarith
  cases hint with
  | none => exact hdef
  | some t =>
    dsimp only
    split_ifs with ht
    · have : cp * (99/100) < cp := by linarith
      linarith [ht.2]
    · exact hdef

/-- C6: for a positive current price, a BUY-family decision produces
`stop_loss_price < current_price < take_profit_price`; a SELL-family decision
(that is not also BUY-family) reverses both inequalities; a HOLD decision
yields position size 0 with both levels unset. -/
theorem risk_metrics_directional (cp vol : ℚ) (decision : String)
    (lp ls lt : Option ℚ) (hcp : 0 < cp) :
    (isBuyDecision decision = true →
      ∃ s t, (calculateRiskMetrics cp vol decision lp ls lt).stopLossPrice = some s ∧
        (calculateRiskMetrics cp vol decision lp ls lt).takeProfitPrice = some t ∧
        s < cp ∧ cp < t) ∧
    (isBuyDecision decision = false → isSellDecision decision = true →
      ∃ s t, (calculateRiskMetrics cp vol decision lp ls lt).stopLossPrice = some s ∧
        (calculateRiskMetrics cp vol decision lp ls lt).takeProfitPrice = some t ∧
        t < cp ∧ cp < s) ∧
    (decision = "HOLD" →
      (calculateRiskMetrics cp vol decision lp ls lt).positionSize = 0 ∧
      (calculateRiskMetrics cp vol decision lp ls lt).stopLossPrice = none ∧
      (calculateRiskMetrics cp vol decision lp ls lt).takeProfitPrice = none) := by
  refine ⟨?_, ?_, ?_⟩
  · intro hb
    unfold calculateRiskMetrics
    rw [if_pos hb]
    exact ⟨longStopPrice cp ls, longTakePrice cp lt, rfl, rfl,
      longStopPrice_lt cp ls hcp, longTakePrice_gt cp lt hcp⟩
  · intro hb hs
    unfold calculateRiskMetrics
    rw [if_neg (by simp [hb]), if_pos hs]
    exact ⟨shortStopPrice cp ls, shortTakePrice cp lt, rfl, rfl,
      shortTakePrice_lt cp lt hcp, shortStopPrice_gt cp ls hcp⟩
  · intro hd
    subst hd
    have hb : isBuyDecision "HOLD" = false := by decide
    have hs : isSellDecision "HOLD" = false := by decide
    unfold calculateRiskMetrics
    rw [if_neg (by simp [hb]), if_neg (by simp [hs])]
    exact ⟨rfl, rfl, rfl⟩

/-- Witness for `risk_metrics_directional`: the spec's worked example — price
100, volatility 20, BUY, no usable hints — has stop 95 and target 115 around
the price. -/
theorem risk_metrics_directional_witness :
    (0 : ℚ) < 100 ∧
    ∃ s t, (calculateRiskMetrics 100 20 "BUY" none none none).stopLossPrice = some s ∧
      (calculateRiskMetrics 100 20 "BUY" none none none).takeProfitPrice = some t ∧
      s < 100 ∧ (100 : ℚ) < t :=
  ⟨by norm_num,
    (risk_metrics_directional 100 20 "BUY" none none none (by norm_num)).1
      (by decide)⟩

lemma thenOpen_capital (bars : List Bar) (ticker : String) (d : Int)
    (dec : Decision) (st : BTState) :
    (thenOpen bars ticker d dec st).capital = st.capital := by
  unfold thenOpen
  split_ifs with h
  · cases openPosition bars ticker d dec st.capital <;> rfl
  · rfl

lemma thenOpen_trades (bars : List Bar) (ticker : String) (d : Int)
    (dec : Decision) (st : BTState) :
    (thenOpen bars ticker d dec st).trades = st.trades := by
  unfold thenOpen
  split_ifs with h
  · cases openPosition bars ticker d dec st.capital <;> rfl
  · rfl

lemma thenOpen_position (bars : List Bar) (ticker : String) (d : Int)
    (dec : Decision) (st : BTState) :
    (thenOpen bars ticker d dec st).position = st.position ∨
    ∃ q, openPosition bars ticker d dec st.capital = some q ∧
      (thenOpen bars ticker d dec st).position = some q := by
  unfold thenOpen
  split_ifs with h
  · cases hop : openPosition bars ticker d dec st.capital with
    | none => exact Or.inl rfl
    | some q => exact Or.inr ⟨q, rfl, rfl⟩
  · exact Or.inl rfl

lemma closePosition_closed_cap_ne (ic : ℚ) (bars : List Bar) (p : Position)
    (d : Int) (tr : Trade) (h : closePosition ic bars p d = .closed tr) :
    ic ≠ 0 := by
  unfold closePosition at h
  cases hpr : priceAtOnOrAfter bars d
  · rw [hpr] at h
    simp at h
  · rw [hpr] at h
    dsimp only at h
    split_ifs at h with h1 h2
    simp_all

lemma closePosition_raisedPL_cap_zero (ic : ℚ) (bars : List Bar) (p : Position)
    (d : Int) (pl : ℚ) (h : closePosition ic bars p d = .raisedAfterCapital pl) :
    ic = 0 := by
  unfold closePosition at h
  cases hpr : priceAtOnOrAfter bars d
  · rw [hpr] at h
    simp at h
  · rw [hpr] at h
    dsimp only at h
    split_ifs at h with h1 h2
    simp_all

lemma sumProfitLoss_append (ts : List Trade) (tr : Trade) :
    sumProfitLoss (ts ++ [tr]) = sumProfitLoss ts + tr.profitLoss := by
  simp [sumProfitLoss]

lemma stepDecided_inv (ic : ℚ) (bars : List Bar) (ticker : String)
    (st : BTState) (d : Int) (dec : Decision)
    (h : st.capital = ic + sumProfitLoss st.trades ∨ (ic = 0 ∧ st.position ≠ none)) :
    (stepDecided ic bars ticker st d dec).capital =
        ic + sumProfitLoss (stepDecided ic bars ticker st d dec).trades ∨
      (ic = 0 ∧ (stepDecided ic bars ticker st d dec).position ≠ none) := by
  unfold stepDecided
  cases hpos : st.position with
  | none =>
    rcases h with h | ⟨h0, hne⟩
    · exact Or.inl (by rw [thenOpen_capital, thenOpen_trades]; exact h)
    · exact absurd hpos hne
  | some p =>
    dsimp only
    split_ifs with hrec
    · cases hcl : closePosition ic bars p d with
      | raisedClean =>
        rcases h with h | ⟨h0, hne⟩
        · exact Or.inl h
        · exact Or.inr ⟨h0, by rw [hpos]; simp⟩
      | raisedAfterCapital pl =>
        exact Or.inr ⟨closePosition_raisedPL_cap_zero ic bars p d pl hcl, by simp⟩
      | closed tr =>
        have hic := closePosition_closed_cap_ne ic bars p d tr hcl
        rcases h with h | ⟨h0, _⟩
        · left
          rw [thenOpen_capital, thenOpen_trades]
          show st.capital + tr.profitLoss =
            ic + sumProfitLoss (st.trades ++ [tr])
          rw [sumProfitLoss_append]
          linarith
        · exact absurd h0 hic
    · rcases h with h | ⟨h0, hne⟩
      · exact Or.inl (by rw [thenOpen_capital, thenOpen_trades]; exact h)
      · refine Or.inr ⟨h0, ?_⟩
        rcases thenOpen_position bars ticker d dec st with hq | ⟨q, _, hq⟩
        · rw [hq, hpos]; simp
        · rw [hq]; simp

lemma stepDate_inv (ic : ℚ) (bars : List Bar) (ticker : String)
    (analyze : Int → Option Decision) (st : BTState) (d : Int)
    (h : st.capital = ic + sumProfitLoss st.trades ∨ (ic = 0 ∧ st.position ≠ none)) :
    (stepDate ic bars ticker analyze st d).capital =
        ic + sumProfitLoss (stepDate ic bars ticker analyze st d).trades ∨
      (ic = 0 ∧ (stepDate ic bars ticker analyze st d).position ≠ none) := by
  unfold stepDate
  split_ifs with hskip
  · exact h
  · cases analyze d with
    | none => exact h
    | some dec => exact stepDecided_inv ic bars ticker st d dec h

lemma runLoop_inv (ic : ℚ) (bars : List Bar) (ticker : String)
    (analyze : Int → Option Decision) (dates : List Int) (st : BTState)
    (h : st.capital = ic + sumProfitLoss st.trades ∨ (ic = 0 ∧ st.position ≠ none)) :
    (runLoop ic bars ticker analyze dates st).capital =
        ic + sumProfitLoss (runLoop ic bars ticker analyze dates st).trades ∨
      (ic = 0 ∧ (runLoop ic bars ticker analyze dates st).position ≠ none) := by
  induction dates generalizing st with
  | nil => exact h
  | cons d ds ih =>
    have hstep := stepDate_inv ic bars ticker analyze st d h
    exact ih (stepDate ic bars ticker analyze st d) hstep

/-- C2: whenever a backtest run completes (the forced final close does not
raise), the final capital equals the initial capital plus the summed
profit/loss of the recorded trades; and every completed close adds exactly
its trade's profit/loss to capital while appending exactly that one trade. -/
theorem backtest_capital_conservation (ic : ℚ) (bars : List Bar)
    (ticker : String) (analyze : Int → Option Decision) (dates : List Int)
    (endDate : Int) (st : BTState)
    (h : runBacktestStates ic bars ticker analyze dates endDate = some st) :
    st.capital = ic + sumProfitLoss st.trades ∧
    ∀ (st0 : BTState) (tr : Trade),
      (applyClose st0 tr).capital = st0.capital + tr.profitLoss ∧
      (applyClose st0 tr).trades = st0.trades ++ [tr] := by
  refine ⟨?_, fun st0 tr => ⟨rfl, rfl⟩⟩
  have hInv := runLoop_inv ic bars ticker analyze dates ⟨ic, none, []⟩
    (Or.inl (by simp [sumProfitLoss]))
  unfold runBacktestStates at h
  generalize hL : runLoop ic bars ticker analyze dates ⟨ic, none, []⟩ = L at h hInv
  unfold finalClose at h
  cases hp : L.position with
  | none =>
    rw [hp] at h hInv
    simp only [Option.some.injEq] at h
    subst h
    rcases hInv with hInv | ⟨_, hne⟩
    · exact hInv
    · exact absurd rfl hne
  | some p =>
    rw [hp] at h hInv
    dsimp only at h
    cases hcl : closePosition ic bars p endDate with
    | raisedClean => rw [hcl] at h; exact absurd h (by simp)
    | raisedAfterCapital pl => rw [hcl] at h; exact absurd h (by simp)
    | closed tr =>
      have hic := closePosition_closed_cap_ne ic bars p endDate tr hcl
      rw [hcl] at h
      simp only [Option.some.injEq] at h
      subst h
      rcases hInv with hInv | ⟨h0, _⟩
      · show L.capital + tr.profitLoss = ic + sumProfitLoss (L.trades ++ [tr])
        rw [sumProfitLoss_append]
        linarith
      · exact absurd h0 hic

/-- Witness for `backtest_capital_conservation`: the empty run completes with
capital 10000 and an empty ledger. -/
theorem backtest_capital_conservation_witness :
    runBacktestStates 10000 [] "T" (fun _ => none) [] 0 =
      some ⟨10000, none, []⟩ ∧
    (⟨10000, none, []⟩ : BTState).capital =
      10000 + sumProfitLoss (⟨10000, none, []⟩ : BTState).trades :=
  ⟨rfl, (backtest_capital_conservation 10000 [] "T" (fun _ => none) [] 0
    ⟨10000, none, []⟩ rfl).1⟩

/-- C1 amended: a BUY or STRONG BUY arriving while a position is already open
leaves capital and the trade ledger untouched, but it does not leave the
position slot untouched in general: the engine runs `_open_position`
unconditionally, so the open position is replaced by a freshly opened one
whenever the open succeeds (the single `current_position` slot still means at
most one position is open at any time). -/
theorem buy_while_open_keeps_ledger (ic : ℚ) (bars : List Bar)
    (ticker : String) (st : BTState) (d : Int) (dec : Decision) (p : Position)
    (hp : st.position = some p)
    (hb : dec.finalRec = "BUY" ∨ dec.finalRec = "STRONG BUY") :
    (stepDecided ic bars ticker st d dec).capital = st.capital ∧
    (stepDecided ic bars ticker st d dec).trades = st.trades ∧
    ((stepDecided ic bars ticker st d dec).position = st.position ∨
      ∃ q, openPosition bars ticker d dec st.capital = some q ∧
        (stepDecided ic bars ticker st d dec).position = some q) := by
  have hnc : ¬(dec.finalRec = "SELL" ∨ dec.finalRec = "STRONG SELL" ∨
      dec.finalRec = "HOLD") := by
    rcases hb with h | h <;> rw [h] <;> decide
  have hstep : stepDecided ic bars ticker st d dec = thenOpen bars ticker d dec st := by
    unfold stepDecided
    rw [hp]
    dsimp only
    rw [if_neg hnc]
  rw [hstep]
  exact ⟨thenOpen_capital bars ticker d dec st, thenOpen_trades bars ticker d dec st,
    thenOpen_position bars ticker d dec st⟩

/-- Witness for `buy_while_open_keeps_ledger`: a BUY at date 5 with a
position already open since date 0 leaves capital and ledger unchanged. -/
theorem buy_while_open_keeps_ledger_witness :
    ((⟨10000, some ⟨"T", 0, 100, 1, 100, "BUY", 1, 95, 115⟩, []⟩ : BTState).position =
      some ⟨"T", 0, 100, 1, 100, "BUY", 1, 95, 115⟩) ∧
    ((⟨"BUY", 9/10, 1/10, 95, 115⟩ : Decision).finalRec = "BUY" ∨
      (⟨"BUY", 9/10, 1/10, 95, 115⟩ : Decision).finalRec = "STRONG BUY") ∧
    ((stepDecided 10000 [⟨5, 49, 51, 50⟩] "T"
        ⟨10000, some ⟨"T", 0, 100, 1, 100, "BUY", 1, 95, 115⟩, []⟩ 5
        ⟨"BUY", 9/10, 1/10, 95, 115⟩).capital =
      (⟨10000, some ⟨"T", 0, 100, 1, 100, "BUY", 1, 95, 115⟩, []⟩ : BTState).capital ∧
    (stepDecided 10000 [⟨5, 49, 51, 50⟩] "T"
        ⟨10000, some ⟨"T", 0, 100, 1, 100, "BUY", 1, 95, 115⟩, []⟩ 5
        ⟨"BUY", 9/10, 1/10, 95, 115⟩).trades =
      (⟨10000, some ⟨"T", 0, 100, 1, 100, "BUY", 1, 95, 115⟩, []⟩ : BTState).trades ∧
    ((stepDecided 10000 [⟨5, 49, 51, 50⟩] "T"
        ⟨10000, some ⟨"T", 0, 100, 1, 100, "BUY", 1, 95, 115⟩, []⟩ 5
        ⟨"BUY", 9/10, 1/10, 95, 115⟩).position =
      (⟨10000, some ⟨"T", 0, 100, 1, 100, "BUY", 1, 95, 115⟩, []⟩ : BTState).position ∨
      ∃ q, openPosition [⟨5, 49, 51, 50⟩] "T" 5 ⟨"BUY", 9/10, 1/10, 95, 115⟩
          (⟨10000, some ⟨"T", 0, 100, 1, 100, "BUY", 1, 95, 115⟩, []⟩ : BTState).capital =
          some q ∧
        (stepDecided 10000 [⟨5, 49, 51, 50⟩] "T"
          ⟨10000, some ⟨"T", 0, 100, 1, 100, "BUY", 1, 95, 115⟩, []⟩ 5
          ⟨"BUY", 9/10, 1/10, 95, 115⟩).position = some q)) :=
  ⟨rfl, Or.inl rfl,
    buy_while_open_keeps_ledger 10000 [⟨5, 49, 51, 50⟩] "T"
      ⟨10000, some ⟨"T", 0, 100, 1, 100, "BUY", 1, 95, 115⟩, []⟩ 5
      ⟨"BUY", 9/10, 1/10, 95, 115⟩ ⟨"T", 0, 100, 1, 100, "BUY", 1, 95, 115⟩
      rfl (Or.inl rfl)⟩

/-- C1 counterexample: a BUY arriving at date 5 while a position opened at
date 0 is still open is NOT a no-op — the engine calls `_open_position`
unconditionally and the open position is replaced by a new one entered at the
date-5 bar, so the position slot changes. -/
theorem buy_replaces_open_position :
    (stepDecided 10000 [⟨5, 49, 51, 50⟩] "T"
      ⟨10000, some ⟨"T", 0, 100, 1, 100, "BUY", 1, 95, 115⟩, []⟩ 5
      ⟨"BUY", 9/10, 1/10, 95, 115⟩).position =
      some ⟨"T", 5, 50, 20, 1000, "BUY", 9/10, 95, 115⟩ ∧
    (stepDecided 10000 [⟨5, 49, 51, 50⟩] "T"
      ⟨10000, some ⟨"T", 0, 100, 1, 100, "BUY", 1, 95, 115⟩, []⟩ 5
      ⟨"BUY", 9/10, 1/10, 95, 115⟩).position ≠
      (⟨10000, some ⟨"T", 0, 100, 1, 100, "BUY", 1, 95, 115⟩, []⟩ : BTState).position := by
  have h : stepDecided 10000 [⟨5, 49, 51, 50⟩] "T"
      ⟨10000, some ⟨"T", 0, 100, 1, 100, "BUY", 1, 95, 115⟩, []⟩ 5
      ⟨"BUY", 9/10, 1/10, 95, 115⟩ =
      thenOpen [⟨5, 49, 51, 50⟩] "T" 5 ⟨"BUY", 9/10, 1/10, 95, 115⟩
        ⟨10000, some ⟨"T", 0, 100, 1, 100, "BUY", 1, 95, 115⟩, []⟩ := by
    unfold stepDecided
    dsimp only
    rw [if_neg (by decide)]
  rw [h]
  unfold thenOpen
  rw [if_pos (by decide)]
  norm_num [openPosition, priceAtOnOrAfter, List.filter]

lemma exitPath_stop (bars : List Bar) (pos : Position) (d : Int) (ec : ℚ)
    (hex : ∃ b ∈ betweenBars bars pos d, b.low ≤ pos.stopLoss) :
    exitPath bars pos d ec = (true, false, pos.stopLoss) := by
  unfold exitPath
  have hany : (betweenBars bars pos d).any
      (fun b => decide (b.low ≤ pos.stopLoss)) = true := by
    simp only [List.any_eq_true, decide_eq_true_eq]
    exact hex
  have hne : ¬ ((betweenBars bars pos d).isEmpty = true) := by
    rcases hex with ⟨b, hb, _⟩
    cases hB : betweenBars bars pos d with
    | nil => rw [hB] at hb; simp at hb
    | cons x xs => simp
  rw [if_neg hne, if_pos hany]

lemma exitPath_target (bars : List Bar) (pos : Position) (d : Int) (ec : ℚ)
    (hno : ¬ ∃ b ∈ betweenBars bars pos d, b.low ≤ pos.stopLoss)
    (hex : ∃ b ∈ betweenBars bars pos d, pos.takeProfit ≤ b.high) :
    exitPath bars pos d ec = (false, true, pos.takeProfit) := by
  unfold exitPath
  have hanyS : ¬ ((betweenBars bars pos d).any
      (fun b => decide (b.low ≤ pos.stopLoss)) = true) := by
    intro hb
    exact hno (by simpa only [List.any_eq_true, decide_eq_true_eq] using hb)
  have hanyT : (betweenBars bars pos d).any
      (fun b => decide (pos.takeProfit ≤ b.high)) = true := by
    simp only [List.any_eq_true, decide_eq_true_eq]
    exact hex
  have hne : ¬ ((betweenBars bars pos d).isEmpty = true) := by
    rcases hex with ⟨b, hb, _⟩
    cases hB : betweenBars bars pos d with
    | nil => rw [hB] at hb; simp at hb
    | cons x xs => simp
  rw [if_neg hne, if_neg hanyS, if_pos hanyT]

lemma exitPath_close (bars : List Bar) (pos : Position) (d : Int) (ec : ℚ)
    (hnoS : ¬ ∃ b ∈ betweenBars bars pos d, b.low ≤ pos.stopLoss)
    (hnoT : ¬ ∃ b ∈ betweenBars bars pos d, pos.takeProfit ≤ b.high) :
    exitPath bars pos d ec = (false, false, ec) := by
  unfold exitPath
  by_cases hemp : (betweenBars bars pos d).isEmpty = true
  · rw [if_pos hemp]
  · have hanyS : ¬ ((betweenBars bars pos d).any
        (fun b => decide (b.low ≤ pos.stopLoss)) = true) := by
      intro hb
      exact hnoS (by simpa only [List.any_eq_true, decide_eq_true_eq] using hb)
    have hanyT : ¬ ((betweenBars bars pos d).any
        (fun b => decide (pos.takeProfit ≤ b.high)) = true) := by
      intro hb
      exact hnoT (by simpa only [List.any_eq_true, decide_eq_true_eq] using hb)
    rw [if_neg hemp, if_neg hanyS, if_neg hanyT]

/-- C3 amended: for a completed close, the exit-path scan considers exactly
the bars with `entry_date < date ≤ close date` — strictly after the entry
date but INCLUDING the close-date bar, not only the bars strictly between the
two dates.  Over that window: a stop touch (low ≤ stop) forces exit at the
stop price with `stop_hit`, taking precedence over the target; else a target
touch (high ≥ target) forces exit at the target price with `target_hit`; else
the exit is the close-date bar's price. -/
theorem close_position_exit_characterization (ic : ℚ) (bars : List Bar)
    (pos : Position) (d : Int) (tr : Trade)
    (h : closePosition ic bars pos d = .closed tr) :
    ((∃ b ∈ betweenBars bars pos d, b.low ≤ pos.stopLoss) →
      tr.stopHit = true ∧ tr.targetHit = false ∧ tr.exitPrice = pos.stopLoss) ∧
    ((¬ ∃ b ∈ betweenBars bars pos d, b.low ≤ pos.stopLoss) →
      (∃ b ∈ betweenBars bars pos d, pos.takeProfit ≤ b.high) →
      tr.stopHit = false ∧ tr.targetHit = true ∧ tr.exitPrice = pos.takeProfit) ∧
    ((¬ ∃ b ∈ betweenBars bars pos d, b.low ≤ pos.stopLoss) →
      (¬ ∃ b ∈ betweenBars bars pos d, pos.takeProfit ≤ b.high) →
      tr.stopHit = false ∧ tr.targetHit = false ∧
      priceAtOnOrAfter bars d = some tr.exitPrice) := by
  unfold closePosition at h
  cases hpr : priceAtOnOrAfter bars d <;> rw [hpr] at h
  · simp at h
  case some ec =>
    dsimp only at h
    split_ifs at h with h1 h2
    injection h with h
    subst h
    refine ⟨?_, ?_, ?_⟩
    · intro hex
      rw [exitPath_stop bars pos d ec hex]
      exact ⟨rfl, rfl, rfl⟩
    · intro hno hex
      rw [exitPath_target bars pos d ec hno hex]
      exact ⟨rfl, rfl, rfl⟩
    · intro hnoS hnoT
      rw [exitPath_close bars pos d ec hnoS hnoT]
      exact ⟨rfl, rfl, rfl⟩

/-- Witness for `close_position_exit_characterization`: entry at 100 on date
0, stop 95 touched by the date-1 bar's low of 94, closed on date 2 — the
trade exits at 95 with `stop_hit` (the spec's worked backtest example). -/
theorem close_position_exit_characterization_witness :
    closePosition 10000 [⟨0, 99, 101, 100⟩, ⟨1, 94, 102, 100⟩, ⟨2, 98, 100, 96⟩]
      ⟨"T", 0, 100, 1, 100, "BUY", 1, 95, 115⟩ 2 =
      .closed ⟨"T", 0, 100, 2, 95, "BUY", 1, 1/100, -5, -5, true, false⟩ ∧
    (∃ b ∈ betweenBars [⟨0, 99, 101, 100⟩, ⟨1, 94, 102, 100⟩, ⟨2, 98, 100, 96⟩]
        ⟨"T", 0, 100, 1, 100, "BUY", 1, 95, 115⟩ 2,
      b.low ≤ (⟨"T", 0, 100, 1, 100, "BUY", 1, 95, 115⟩ : Position).stopLoss) ∧
    ((⟨"T", 0, 100, 2, 95, "BUY", 1, 1/100, -5, -5, true, false⟩ : Trade).stopHit = true ∧
      (⟨"T", 0, 100, 2, 95, "BUY", 1, 1/100, -5, -5, true, false⟩ : Trade).targetHit = false ∧
      (⟨"T", 0, 100, 2, 95, "BUY", 1, 1/100, -5, -5, true, false⟩ : Trade).exitPrice =
        (⟨"T", 0, 100, 1, 100, "BUY", 1, 95, 115⟩ : Position).stopLoss) := by
  have heval : closePosition 10000
      [⟨0, 99, 101, 100⟩, ⟨1, 94, 102, 100⟩, ⟨2, 98, 100, 96⟩]
      ⟨"T", 0, 100, 1, 100, "BUY", 1, 95, 115⟩ 2 =
      .closed ⟨"T", 0, 100, 2, 95, "BUY", 1, 1/100, -5, -5, true, false⟩ := by
    norm_num [closePosition, priceAtOnOrAfter, exitPath, betweenBars, List.filter,
      List.any, List.isEmpty]
  have hex : ∃ b ∈ betweenBars [⟨0, 99, 101, 100⟩, ⟨1, 94, 102, 100⟩, ⟨2, 98, 100, 96⟩]
      ⟨"T", 0, 100, 1, 100, "BUY", 1, 95, 115⟩ 2,
      b.low ≤ (⟨"T", 0, 100, 1, 100, "BUY", 1, 95, 115⟩ : Position).stopLoss := by
    refine ⟨⟨1, 94, 102, 100⟩, ?_, by norm_num⟩
    norm_num [betweenBars, List.filter]
  exact ⟨heval, hex,
    (close_position_exit_characterization 10000
      [⟨0, 99, 101, 100⟩, ⟨1, 94, 102, 100⟩, ⟨2, 98, 100, 96⟩]
      ⟨"T", 0, 100, 1, 100, "BUY", 1, 95, 115⟩ 2
      ⟨"T", 0, 100, 2, 95, "BUY", 1, 1/100, -5, -5, true, false⟩ heval).1 hex⟩

/-- C3 counterexample: the scan window is NOT "strictly between entry and
close date".  With entry date 0, close date 2, and the stop level 95 touched
only by the close-date bar itself (low 94 on date 2), the code stops the
trade out at 95, while a scan of the strictly-between window (only the date-1
bar) finds no trigger and would exit at the close-date price 96. -/
theorem exit_scan_includes_close_date_bar :
    closePosition 10000 [⟨0, 99, 101, 100⟩, ⟨1, 98, 102, 100⟩, ⟨2, 94, 100, 96⟩]
      ⟨"T", 0, 100, 1, 100, "BUY", 1, 95, 115⟩ 2 =
      .closed ⟨"T", 0, 100, 2, 95, "BUY", 1, 1/100, -5, -5, true, false⟩ ∧
    exitPathStrictBetween [⟨0, 99, 101, 100⟩, ⟨1, 98, 102, 100⟩, ⟨2, 94, 100, 96⟩]
      ⟨"T", 0, 100, 1, 100, "BUY", 1, 95, 115⟩ 2 96 = (false, false, 96) := by
  constructor
  · norm_num [closePosition, priceAtOnOrAfter, exitPath, betweenBars, List.filter,
      List.any, List.isEmpty]
  · norm_num [exitPathStrictBetween, List.filter, List.any, List.isEmpty]

/-- C9 counterexample: an unparsable date string does NOT produce an
empty/error return value — `pd.to_datetime` runs before the `try` block, so
the parse exception propagates to the caller (modelled as the `.error`
outcome of the whole call). -/
theorem unparsable_date_raises :
    runBacktestTop (fun _ => .error "unparsable") (fun _ _ _ => .ok [])
      (fun _ => none) "AAPL" "garbage" "2020-02-01" 30 10000 =
      .error "unparsable" := rfl

/-- C9 amended: once both date strings parse, a data-fetch failure or a
fetched history shorter than `rebalance_days` bars makes `run_backtest`
return the explicit empty result `{}` instead of raising; only the date
parsing itself (outside the `try`) can propagate an exception. -/
theorem fetch_error_or_short_data_returns_empty
    (parseDate : String → Except String Int)
    (fetchData : String → String → String → Except String (List Bar))
    (analyze : Int → Option Decision) (ticker startS endS : String)
    (reb : Nat) (ic : ℚ) (s e : Int)
    (hs : parseDate startS = .ok s) (he : parseDate endS = .ok e)
    (hf : (∃ msg, fetchData ticker startS endS = .error msg) ∨
      ∃ bars, fetchData ticker startS endS = .ok bars ∧ bars.length < reb) :
    runBacktestTop parseDate fetchData analyze ticker startS endS reb ic =
      Except.ok .empty := by
  unfold runBacktestTop
  rw [hs, he]
  rcases hf with ⟨msg, hm⟩ | ⟨bars, hb, hlen⟩
  · rw [hm]
    rfl
  · rw [hb]
    show (if bars.length < reb then _ else _) = _
    rw [if_pos hlen]
    rfl

/-- Witness for `fetch_error_or_short_data_returns_empty`: a failing fetch
with well-formed dates yields the empty result. -/
theorem fetch_error_returns_empty_witness :
    (fun (_ : String) => (Except.ok (0 : Int) : Except String Int)) "2020-01-01" =
      Except.ok 0 ∧
    (fun (_ : String) (_ : String) (_ : String) =>
      (Except.error "boom" : Except String (List Bar))) "AAPL" "2020-01-01"
        "2020-02-01" = Except.error "boom" ∧
    runBacktestTop (fun _ => .ok 0) (fun _ _ _ => .error "boom") (fun _ => none)
      "AAPL" "2020-01-01" "2020-02-01" 30 10000 = Except.ok .empty :=
  ⟨rfl, rfl,
    fetch_error_or_short_data_returns_empty (fun _ => .ok 0)
      (fun _ _ _ => .error "boom") (fun _ => none) "AAPL" "2020-01-01"
      "2020-02-01" 30 10000 0 0 rfl rfl (Or.inl ⟨"boom", rfl⟩)⟩

end TradingAgents
